import Mathlib

/-!
Verification of the GalaxyStock (GalacticStocks) specification against the
repository sources.

The frontend TypeScript sources are embedded directly (types.ts, adminAuth.ts,
BuyModal.tsx, SellModal.tsx, TimestepControl.tsx, AppContext.tsx,
api/client.ts).  The backend timestep engine (admin_routes.py,
stock_simulator.py) is not part of the source tree here; its components
(PriceModel, TimestepCoordinator, HistoryStore) are modelled from the
specification text, as marked on each definition.
-/

set_option maxHeartbeats 1000000

namespace GalaxyStock

/-! ## Frontend data model, from frontend/src/types.ts -/

/-- Company record, from the Company export of types.ts. -/
structure Company where
  symbol : String
  name : String
  description : Option String

/-- Market data snapshot, from the MarketData export of types.ts. -/
structure MarketData where
  timestep : Nat
  last_updated : String
  prices : List (String × ℝ)

/-- Discriminator of the WebSocketMessage union type in types.ts: the
declared message type is exactly the union of the two string literals
connected and timestep_updated. -/
inductive WsType
  | connected
  | timestep_updated
deriving DecidableEq

/-- Real-time channel message, from the WebSocketMessage export of types.ts:
every message carries a type, a timestep, a prices map and a timestamp. -/
structure WebSocketMessage where
  type : WsType
  timestep : Nat
  prices : List (String × ℝ)
  timestamp : String

/-! ## Admin authentication, from frontend/src/utils/adminAuth.ts -/

/-- Constant ADMIN_PASSWORD of adminAuth.ts. -/
def ADMIN_PASSWORD : String := "galacticstocks123"

/-- Model of the browser localStorage slot for the key adminPassword:
none when the key is absent, some v when it stores v. -/
abbrev AdminStorage := Option String

namespace adminAuth

/-- Function login of adminAuth.ts: on a matching password, store it and
return true; otherwise leave storage unchanged and return false. -/
def login (password : String) (st : AdminStorage) : Bool × AdminStorage :=
  if password = ADMIN_PASSWORD then (true, some password) else (false, st)

/-- Function isAuthenticated of adminAuth.ts: the stored value equals the
admin password. -/
def isAuthenticated (st : AdminStorage) : Bool :=
  st == some ADMIN_PASSWORD

/-- Function getPassword of adminAuth.ts: the stored value, or null. -/
def getPassword (st : AdminStorage) : Option String := st

/-- Function logout of adminAuth.ts: remove the stored password. -/
def logout (_st : AdminStorage) : AdminStorage := none

end adminAuth

/-! ## Trade quantity handling, from BuyModal.tsx and SellModal.tsx -/

/-- Result of the JS parseInt call on the quantity input text: none models
NaN (non-numeric input), some z models an integer result. -/
abbrev ParsedInt := Option Int

/-- The JS expression parseInt(v) or-else 1: NaN and 0 are falsy and fall
back to 1. -/
def parseIntOrOne (v : ParsedInt) : Int :=
  match v with
  | none => 1
  | some z => if z = 0 then 1 else z

/-- Quantity clamp in the onChange handler of BuyModal.tsx, line 118:
Math.max(1, parseInt(e.target.value) or-else 1). -/
def buyClamp (v : ParsedInt) : Int :=
  max 1 (parseIntOrOne v)

/-- Quantity clamp in the onChange handler of SellModal.tsx, line 106:
Math.min(holding.quantity, Math.max(1, parseInt(e.target.value) or-else 1)). -/
def sellClamp (maxQ : Nat) (v : ParsedInt) : Int :=
  min (maxQ : Int) (max 1 (parseIntOrOne v))

/-- Initial sell quantity set by the effect in SellModal.tsx, line 25:
Math.min(1, holding.quantity). -/
def sellQuantityInit (maxQ : Nat) : Int :=
  min 1 (maxQ : Int)

/-- Quantity values reachable in the BuyModal state: initial value 1,
then any sequence of onChange events. -/
inductive BuyReachable : Int → Prop
  | init : BuyReachable 1
  | step (q : Int) (v : ParsedInt) : BuyReachable q → BuyReachable (buyClamp v)

/-- Quantity values reachable in the SellModal state for a holding of
maxQ shares: the effect initialisation, then any sequence of onChange
events. -/
inductive SellReachable (maxQ : Nat) : Int → Prop
  | init : SellReachable maxQ (sellQuantityInit maxQ)
  | step (q : Int) (v : ParsedInt) :
      SellReachable maxQ q → SellReachable maxQ (sellClamp maxQ v)

/-- Submit guard of SellModal.tsx, line 173: the confirm button is disabled
when quantity < 1 or quantity > holding.quantity (the loading flag is
orthogonal and omitted). -/
def sellSubmitAllowed (q : Int) (maxQ : Nat) : Bool :=
  decide (1 ≤ q) && decide (q ≤ (maxQ : Int))

/-- Submit guard of BuyModal.tsx, line 169: the confirm button is disabled
when no symbol is selected or quantity < 1. -/
def buySubmitAllowed (q : Int) (symbolNonempty : Bool) : Bool :=
  symbolNonempty && decide (1 ≤ q)

/-! ## Override input handling, from components/admin/TimestepControl.tsx -/

/-- Override map construction in handleGenerate of TimestepControl.tsx,
lines 57 to 62: keep exactly the entries whose text is non-empty and parse
each kept text with parseFloat (modelled by the parameter parse). -/
def buildOverrideMap (parse : String → ℝ) (overrides : List (String × String)) :
    List (String × ℝ) :=
  (overrides.filter (fun p => p.2 != "")).map (fun p => (p.1, parse p.2))

/-- Component state of TimestepControl.tsx relevant to overrides. -/
structure TimestepControlState where
  overrides : List (String × String)
  showModal : Bool

/-- State update after the generate fetch in handleGenerate of
TimestepControl.tsx, lines 74 to 82: on response.ok the override map is
reset to empty and the modal closed; otherwise the state is kept. -/
def handleGenerateResult (ok : Bool) (st : TimestepControlState) :
    TimestepControlState :=
  if ok then { overrides := [], showModal := false } else st

/-! ## Generate response declaration, from frontend/src/api/client.ts -/

/-- Field names of the response type declared by adminApi.generateTimestep
in api/client.ts, lines 132 to 137. -/
def generateTimestepResponseFields : List String :=
  ["success", "timestep", "last_updated", "prices"]

/-- Response type declared by adminApi.generateTimestep in api/client.ts. -/
structure GenerateTimestepResponse where
  success : Bool
  timestep : Nat
  last_updated : String
  prices : List (String × ℝ)

/-! ## Price model, modelled from the spec (backend not under src) -/

/-- Modelled from the spec: the backend PriceModel
(stock_simulator.calculate_next_price) is not under src.  Section 4.1 of
the spec: price = currentPrice * exp((drift - 0.5 * volatility ^ 2) * dt
+ volatility * sqrt(dt) * randomDraw) with dt = 1, floored at the small
positive constant 0.01. -/
noncomputable def nextPrice (currentPrice drift volatility randomDraw : ℝ) : ℝ :=
  max 0.01 (currentPrice *
    Real.exp ((drift - 0.5 * volatility ^ 2) * 1 +
      volatility * Real.sqrt 1 * randomDraw))

/-! ## Timestep engine state, modelled from the spec (backend not under src) -/

/-- Modelled from the spec: entity configuration, section 3 of the spec
(symbol, name, drift or trend, volatility, initial price). -/
structure Entity where
  symbol : String
  name : String
  initial_price : ℝ
  trend : ℝ
  volatility : ℝ

/-- Modelled from the spec: one immutable PricePoint record per entity per
timestep, section 3 of the spec. -/
structure PricePoint where
  symbol : String
  timestep : Nat
  price : ℝ
  timestamp : String
  is_override : Bool

/-- Modelled from the spec: HistoryStore as an append-only ledger of
PricePoint records, section 4.3 of the spec. -/
abbrev HistoryStore := List PricePoint

/-- Modelled from the spec: the price series of a symbol, the PricePoint
records of that symbol in ledger (ascending generation) order. -/
def series (store : HistoryStore) (sym : String) : List PricePoint :=
  store.filter (fun p => p.symbol == sym)

/-- Modelled from the spec: currentPrice of an entity, the latest
PricePoint for the symbol, or the configured initial price when no
PricePoint exists yet, section 4.3 of the spec. -/
noncomputable def currentPrice (store : HistoryStore) (e : Entity) : ℝ :=
  match (series store e.symbol).getLast? with
  | some p => p.price
  | none => e.initial_price

/-- Modelled from the spec: commit of a batch of PricePoint records,
section 4.3 of the spec: atomic multi-row insert that fails entirely
(no rows written) when any row collides with an existing
(symbol, timestep) pair. -/
def commit (store : HistoryStore) (batch : List PricePoint) :
    Option HistoryStore :=
  if batch.all (fun p =>
      store.all (fun q => !(q.symbol == p.symbol && q.timestep == p.timestep)))
  then some (store ++ batch)
  else none

/-- Modelled from the spec: MarketState, the current timestep number and
the generation-in-progress flag (the advance-lock), section 3 of the
spec. -/
structure MarketState where
  timestep : Nat
  generating : Bool

/-- Modelled from the spec: OverrideMap, an input-only mapping from symbol
to an absolute price value, section 3 of the spec. -/
abbrev OverrideMap := List (String × ℝ)

/-- Lookup of a symbol in an OverrideMap. -/
def lookupOverride (ov : OverrideMap) (sym : String) : Option ℝ :=
  (ov.find? (fun p => p.1 == sym)).map Prod.snd

/-- Modelled from the spec: override validation, section 7 of the spec: an
override price must be positive and must reference a known symbol. -/
def validOverrides (entities : List Entity) (ov : OverrideMap) : Prop :=
  ∀ p ∈ ov, 0 < p.2 ∧ ∃ e ∈ entities, e.symbol = p.1

/-- Modelled from the spec: failure conditions of the generate operation,
section 7 of the spec. -/
inductive GenError
  | GenerationInProgress
  | ValidationError
  | PersistenceFailure
deriving DecidableEq

/-- Modelled from the spec: the success payload of the generate operation,
section 6 of the spec. -/
structure GenResponse where
  success : Bool
  timestep : Nat
  timestamp : String
  prices : List (String × ℝ)

/-- Modelled from the spec: step 1 of generate, section 4.2 of the spec:
attempt to take the single advance-lock, failing when it is already
held. -/
def tryAcquire (ms : MarketState) : Option MarketState :=
  if ms.generating then none else some { ms with generating := true }

/-- Modelled from the spec: the new PricePoint of one entity in step 3 of
generate, section 4.2 of the spec: the override value when present
(flagged as an override), otherwise the PriceModel applied to the current
price with a fresh draw; stamped with timestep t + 1. -/
noncomputable def computePoint (ov : OverrideMap) (draw : String → ℝ)
    (now : String) (store : HistoryStore) (t : Nat) (e : Entity) : PricePoint :=
  match lookupOverride ov e.symbol with
  | some v =>
      { symbol := e.symbol, timestep := t + 1, price := v,
        timestamp := now, is_override := true }
  | none =>
      { symbol := e.symbol, timestep := t + 1,
        price := nextPrice (currentPrice store e) e.trend e.volatility
          (draw e.symbol),
        timestamp := now, is_override := false }

/-- Modelled from the spec: step 3 of generate over all entities. -/
noncomputable def computeBatch (entities : List Entity) (ov : OverrideMap)
    (draw : String → ℝ) (now : String) (store : HistoryStore) (t : Nat) :
    List PricePoint :=
  entities.map (computePoint ov draw now store t)

/-- Modelled from the spec: steps 3 to 6 of generate under the lock,
section 4.2 of the spec.  The Boolean persistOk injects an internal
persistence fault: when it is false, or when commit rejects the batch, the
attempt aborts with no rows written, the timestep unchanged and the lock
released. -/
noncomputable def generateLocked (entities : List Entity) (ov : OverrideMap)
    (draw : String → ℝ) (now : String) (persistOk : Bool)
    (ms : MarketState) (store : HistoryStore) :
    MarketState × HistoryStore × Except GenError GenResponse :=
  let batch := computeBatch entities ov draw now store ms.timestep
  if persistOk then
    match commit store batch with
    | some store2 =>
        ({ timestep := ms.timestep + 1, generating := false }, store2,
          Except.ok
            { success := true, timestep := ms.timestep + 1, timestamp := now,
              prices := batch.map (fun p => (p.symbol, p.price)) })
    | none =>
        ({ ms with generating := false }, store,
          Except.error GenError.PersistenceFailure)
  else
    ({ ms with generating := false }, store,
      Except.error GenError.PersistenceFailure)

open Classical in
/-- Modelled from the spec: the generate operation of the
TimestepCoordinator, section 4.2 of the spec: fail fast with
GenerationInProgress when the lock is held, reject invalid overrides
before any computation, otherwise run the locked region. -/
noncomputable def generate (entities : List Entity) (ov : OverrideMap)
    (draw : String → ℝ) (now : String) (persistOk : Bool)
    (ms : MarketState) (store : HistoryStore) :
    MarketState × HistoryStore × Except GenError GenResponse :=
  if ms.generating then
    (ms, store, Except.error GenError.GenerationInProgress)
  else if validOverrides entities ov then
    generateLocked entities ov draw now persistOk
      { ms with generating := true } store
  else
    ({ ms with generating := false }, store,
      Except.error GenError.ValidationError)

/-- Modelled from the spec: a run of successive generate calls without
overrides and without injected faults; draws and nows supply the random
draws and the wall-clock stamp of each step. -/
noncomputable def generateRun (entities : List Entity)
    (draws : Nat → String → ℝ) (nows : Nat → String) :
    Nat → MarketState × HistoryStore → MarketState × HistoryStore
  | 0, s => s
  | n + 1, s =>
      let s1 := generateRun entities draws nows n s
      let r := generate entities [] (draws n) (nows n) true s1.1 s1.2
      (r.1, r.2.1)

/-! ## Real-time channel, server side modelled from the spec -/

/-- Modelled from the spec: the backend websocket endpoint is not under
src.  Section 4.4 of the spec: on connect the server sends a connected
message carrying the current timestep. -/
def connectMessage (ms : MarketState) (ts : String) : WebSocketMessage :=
  { type := WsType.connected, timestep := ms.timestep, prices := [],
    timestamp := ts }

/-- Modelled from the spec: on each successful generate the server
broadcasts a timestep_updated message carrying the new timestep, the full
prices map and the timestamp, section 6 of the spec. -/
def broadcastOf (r : GenResponse) : WebSocketMessage :=
  { type := WsType.timestep_updated, timestep := r.timestep,
    prices := r.prices, timestamp := r.timestamp }

/-! ## Client message handling, from contexts/AppContext.tsx -/

/-- Client-side application state relevant to handleWebSocketMessage of
AppContext.tsx. -/
structure AppState where
  currentTimestep : Nat
  marketData : Option MarketData

/-- Side effects requested by handleWebSocketMessage of AppContext.tsx:
a full market re-fetch through the read path, or a portfolio refresh. -/
inductive ClientAction
  | RefreshMarket
  | RefreshPortfolio
deriving DecidableEq

/-- Function handleWebSocketMessage of AppContext.tsx, lines 86 to 117: a
connected message sets the current timestep and re-fetches the full market
state; a timestep_updated message sets the current timestep, patches the
cached market data in place and refreshes the portfolio when a character
is selected. -/
def handleWebSocketMessage (characterName : Option String) (s : AppState)
    (m : WebSocketMessage) : AppState × List ClientAction :=
  match m.type with
  | WsType.connected =>
      ({ s with currentTimestep := m.timestep }, [ClientAction.RefreshMarket])
  | WsType.timestep_updated =>
      ({ currentTimestep := m.timestep,
         marketData := s.marketData.map (fun md =>
           { md with
             timestep := m.timestep,
             last_updated := m.timestamp,
             prices := m.prices }) },
       if characterName.isSome then [ClientAction.RefreshPortfolio] else [])

/-! ## Helper lemmas -/

/-- The per-entity price point keeps the entity symbol. -/
theorem computePoint_symbol (ov : OverrideMap) (draw : String → ℝ)
    (now : String) (store : HistoryStore) (t : Nat) (e : Entity) :
    (computePoint ov draw now store t e).symbol = e.symbol := by
  unfold computePoint
  cases lookupOverride ov e.symbol <;> rfl

/-- The per-entity price point is stamped with timestep t + 1. -/
theorem computePoint_timestep (ov : OverrideMap) (draw : String → ℝ)
    (now : String) (store : HistoryStore) (t : Nat) (e : Entity) :
    (computePoint ov draw now store t e).timestep = t + 1 := by
  unfold computePoint
  cases lookupOverride ov e.symbol <;> rfl

/-- Filtering a mapped list filters the preimages. -/
theorem filter_of_map {α β : Type} (f : α → β) (p : β → Bool) (l : List α) :
    (l.map f).filter p = (l.filter (fun a => p (f a))).map f := by
  induction l with
  | nil => rfl
  | cons a l ih =>
      by_cases h : p (f a) = true <;>
        simp [List.filter_cons, h, ih]

/-- The series of a concatenated ledger splits. -/
theorem series_append (store batch : HistoryStore) (sym : String) :
    series (store ++ batch) sym = series store sym ++ series batch sym := by
  unfold series
  rw [List.filter_append]

/-- The series of one computed batch: one point at t + 1 per entity of the
symbol. -/
theorem series_computeBatch (entities : List Entity) (ov : OverrideMap)
    (draw : String → ℝ) (now : String) (store : HistoryStore) (t : Nat)
    (sym : String) :
    (series (computeBatch entities ov draw now store t) sym).map
        PricePoint.timestep
      = (entities.filter (fun e => e.symbol == sym)).map (fun _ => t + 1) := by
  induction entities with
  | nil => rfl
  | cons e es ih =>
      simp only [computeBatch, List.map_cons, series, List.filter_cons,
        computePoint_symbol] at ih ⊢
      cases hs : (e.symbol == sym) <;>
        simp [hs, computePoint_timestep, ih]

/-- Committing a batch of strictly newer rows succeeds and appends. -/
theorem commit_of_fresh (store : HistoryStore) (batch : List PricePoint)
    (t : Nat) (hstore : ∀ p ∈ store, p.timestep ≤ t)
    (hbatch : ∀ p ∈ batch, p.timestep = t + 1) :
    commit store batch = some (store ++ batch) := by
  unfold commit
  rw [if_pos]
  rw [List.all_eq_true]
  intro p hp
  rw [List.all_eq_true]
  intro q hq
  have h1 := hstore q hq
  have h2 := hbatch p hp
  have hne : (q.timestep == p.timestep) = false := by
    rw [beq_eq_false_iff_ne]
    omega
  simp [hne]

/-- A generate call while the lock is held fails fast and changes
nothing. -/
theorem generate_locked_out (entities : List Entity) (ov : OverrideMap)
    (draw : String → ℝ) (now : String) (ok : Bool)
    (ms : MarketState) (store : HistoryStore) (hg : ms.generating = true) :
    generate entities ov draw now ok ms store =
      (ms, store, Except.error GenError.GenerationInProgress) := by
  simp [generate, hg]

/-- A generate call with invalid overrides is rejected before any
computation, with the lock released. -/
theorem generate_invalid (entities : List Entity) (ov : OverrideMap)
    (draw : String → ℝ) (now : String) (ok : Bool)
    (ms : MarketState) (store : HistoryStore) (hg : ms.generating = false)
    (hov : ¬ validOverrides entities ov) :
    generate entities ov draw now ok ms store =
      ({ ms with generating := false }, store,
        Except.error GenError.ValidationError) := by
  simp [generate, hg, hov]

/-- A generate call without overrides on a quiescent, consistent state
succeeds: the timestep advances, the batch is appended, the response
carries the new timestep and the price map. -/
theorem generate_ok_eq (entities : List Entity) (draw : String → ℝ)
    (now : String) (ms : MarketState) (store : HistoryStore)
    (hg : ms.generating = false)
    (hstore : ∀ p ∈ store, p.timestep ≤ ms.timestep) :
    generate entities [] draw now true ms store =
      ({ timestep := ms.timestep + 1, generating := false },
       store ++ computeBatch entities [] draw now store ms.timestep,
       Except.ok
         { success := true, timestep := ms.timestep + 1, timestamp := now,
           prices := (computeBatch entities [] draw now store ms.timestep).map
             (fun p => (p.symbol, p.price)) }) := by
  have hval : validOverrides entities [] := by
    intro p hp
    simp at hp
  have hbatch : ∀ p ∈ computeBatch entities [] draw now store ms.timestep,
      p.timestep = ms.timestep + 1 := by
    intro p hp
    unfold computeBatch at hp
    rw [List.mem_map] at hp
    obtain ⟨e, _, rfl⟩ := hp
    exact computePoint_timestep _ _ _ _ _ _
  have hcommit := commit_of_fresh store _ ms.timestep hstore hbatch
  simp [generate, hg, hval, generateLocked, hcommit]

/-- A run of successful generate calls advances the timestep one per
step, keeps the lock released, keeps every ledger row at or below the
current timestep, and appends for the given symbol exactly one point per
step at consecutive timesteps. -/
theorem generateRun_spec (entities : List Entity) (draws : Nat → String → ℝ)
    (nows : Nat → String) (sym : String)
    (hone : (entities.filter (fun e => e.symbol == sym)).length = 1) :
    ∀ (n : Nat) (ms : MarketState) (store : HistoryStore),
      ms.generating = false → (∀ p ∈ store, p.timestep ≤ ms.timestep) →
      (generateRun entities draws nows n (ms, store)).1.timestep
          = ms.timestep + n ∧
      (generateRun entities draws nows n (ms, store)).1.generating = false ∧
      (∀ p ∈ (generateRun entities draws nows n (ms, store)).2,
        p.timestep ≤ ms.timestep + n) ∧
      (series (generateRun entities draws nows n (ms, store)).2 sym).map
          PricePoint.timestep
        = (series store sym).map PricePoint.timestep
          ++ (List.range n).map (fun k => ms.timestep + 1 + k) := by
  intro n
  induction n with
  | zero =>
      intro ms store hg hstore
      refine ⟨by simp [generateRun], by simpa [generateRun] using hg,
        by simpa [generateRun] using hstore, by simp [generateRun]⟩
  | succ n ih =>
      intro ms store hg hstore
      obtain ⟨iht, ihg, ihb, ihs⟩ := ih ms store hg hstore
      set S := generateRun entities draws nows n (ms, store) with hS
      have hb2 : ∀ p ∈ S.2, p.timestep ≤ S.1.timestep := by
        intro p hp
        rw [iht]
        exact ihb p hp
      have hok := generate_ok_eq entities (draws n) (nows n) S.1 S.2 ihg hb2
      have hrun : generateRun entities draws nows (n + 1) (ms, store) =
          ((generate entities [] (draws n) (nows n) true S.1 S.2).1,
           (generate entities [] (draws n) (nows n) true S.1 S.2).2.1) := rfl
      rw [hrun, hok]
      obtain ⟨a, ha⟩ := List.length_eq_one.mp hone
      refine ⟨?_, rfl, ?_, ?_⟩
      · show S.1.timestep + 1 = ms.timestep + (n + 1)
        omega
      · intro p hp
        rcases List.mem_append.mp hp with hp | hp
        · have := ihb p hp
          omega
        · unfold computeBatch at hp
          rw [List.mem_map] at hp
          obtain ⟨e, _, rfl⟩ := hp
          rw [computePoint_timestep, iht]
          omega
      · show (series (S.2 ++ computeBatch entities []
            (draws n) (nows n) S.2 S.1.timestep) sym).map PricePoint.timestep = _
        rw [series_append, List.map_append, ihs, series_computeBatch, ha,
          List.range_succ, List.map_append]
        simp only [List.map_cons, List.map_nil, List.append_assoc]
        rw [iht]
        have harith : ms.timestep + n + 1 = ms.timestep + 1 + n := by omega
        rw [harith]

/-! ## Claim theorems -/

/-- Claim C9: adminAuth.login returns true exactly on the configured admin
password; after a successful login, isAuthenticated holds and getPassword
returns the stored password; after logout, isAuthenticated is false and
getPassword returns none. -/
theorem adminAuth_password_roundtrip :
    (∀ (p : String) (st : AdminStorage),
      (adminAuth.login p st).1 = true ↔ p = ADMIN_PASSWORD) ∧
    (∀ (p : String) (st : AdminStorage), (adminAuth.login p st).1 = true →
      adminAuth.isAuthenticated (adminAuth.login p st).2 = true ∧
      adminAuth.getPassword (adminAuth.login p st).2 = some p) ∧
    (∀ st : AdminStorage,
      adminAuth.isAuthenticated (adminAuth.logout st) = false ∧
      adminAuth.getPassword (adminAuth.logout st) = none) := by
  refine ⟨?_, ?_, ?_⟩
  · intro p st
    constructor
    · intro h
      by_contra hne
      simp [adminAuth.login, hne] at h
    · intro h
      simp [adminAuth.login, h]
  · intro p st h
    have hp : p = ADMIN_PASSWORD := by
      by_contra hne
      simp [adminAuth.login, hne] at h
    subst hp
    simp [adminAuth.login, adminAuth.isAuthenticated, adminAuth.getPassword]
  · intro st
    simp [adminAuth.logout, adminAuth.isAuthenticated, adminAuth.getPassword]

/-- Witness for claim C9 at the concrete admin password and empty
storage. -/
theorem adminAuth_password_roundtrip_witness :
    adminAuth.isAuthenticated (adminAuth.login "galacticstocks123" none).2
        = true ∧
    adminAuth.getPassword (adminAuth.login "galacticstocks123" none).2
        = some "galacticstocks123" :=
  adminAuth_password_roundtrip.2.1 "galacticstocks123" none (by decide)

/-- Claim C10: every buy submission carries an integer quantity of at
least 1, and every sell submission carries an integer quantity between 1
and the held quantity inclusive; out-of-range or non-numeric input is
clamped. -/
theorem trade_quantity_bounds :
    (∀ q : Int, BuyReachable q → 1 ≤ q) ∧
    (∀ (maxQ : Nat) (q : Int), SellReachable maxQ q →
      sellSubmitAllowed q maxQ = true → 1 ≤ q ∧ q ≤ (maxQ : Int)) ∧
    (∀ (maxQ : Nat) (v : ParsedInt), 1 ≤ (maxQ : Int) →
      1 ≤ sellClamp maxQ v ∧ sellClamp maxQ v ≤ (maxQ : Int)) ∧
    (∀ (q : Int) (b : Bool), buySubmitAllowed q b = true → 1 ≤ q) := by
  refine ⟨?_, ?_, ?_, ?_⟩
  · intro q h
    induction h with
    | init => exact le_refl 1
    | step q v _ _ => exact le_max_left 1 _
  · intro maxQ q _ hsub
    simpa [sellSubmitAllowed] using hsub
  · intro maxQ v hmax
    exact ⟨le_min hmax (le_max_left 1 _), min_le_left _ _⟩
  · intro q b hsub
    simp [buySubmitAllowed] at hsub
    exact hsub.2

/-- Witness for claim C10 at a held quantity of 5 and the initial sell
quantity. -/
theorem trade_quantity_bounds_witness :
    1 ≤ sellQuantityInit 5 ∧ sellQuantityInit 5 ≤ ((5 : Nat) : Int) :=
  trade_quantity_bounds.2.1 5 (sellQuantityInit 5) SellReachable.init
    (by decide)

/-- Claim C8: the generate request override map holds exactly the symbols
with non-empty override text, each mapped to its parsed value, and a
successful generate resets the override map to empty. -/
theorem override_map_exact :
    (∀ (parse : String → ℝ) (ov : List (String × String)) (s : String)
        (x : ℝ),
      (s, x) ∈ buildOverrideMap parse ov ↔
        ∃ t, (s, t) ∈ ov ∧ t ≠ "" ∧ x = parse t) ∧
    (∀ st, handleGenerateResult true st =
      { overrides := [], showModal := false }) ∧
    (∀ st, handleGenerateResult false st = st) := by
  refine ⟨?_, fun st => rfl, fun st => rfl⟩
  intro parse ov s x
  constructor
  · intro h
    simp only [buildOverrideMap, List.mem_map, List.mem_filter] at h
    obtain ⟨p, ⟨hmem, hne⟩, heq⟩ := h
    have hs : p.1 = s := congrArg Prod.fst heq
    refine ⟨p.2, ?_, ?_, (congrArg Prod.snd heq).symm⟩
    · rw [← hs]
      simpa using hmem
    · intro hempty
      rw [hempty] at hne
      simp at hne
  · rintro ⟨t, hmem, hne, hx⟩
    simp only [buildOverrideMap, List.mem_map, List.mem_filter]
    refine ⟨(s, t), ⟨hmem, ?_⟩, ?_⟩
    · simpa [bne_iff_ne] using hne
    · rw [hx]

/-- Claim C7: a connected real-time message sets the current timestep from
the message and triggers a full market re-fetch through the read path. -/
theorem handleConnected_refetch (ch : Option String) (s : AppState)
    (m : WebSocketMessage) (hm : m.type = WsType.connected) :
    handleWebSocketMessage ch s m =
      ({ s with currentTimestep := m.timestep },
       [ClientAction.RefreshMarket]) := by
  unfold handleWebSocketMessage
  rw [hm]

/-- Witness for claim C7 at a concrete connected message. -/
theorem handleConnected_refetch_witness :
    handleWebSocketMessage none { currentTimestep := 0, marketData := none }
        { type := WsType.connected, timestep := 7, prices := [],
          timestamp := "t7" } =
      ({ currentTimestep := 7, marketData := none },
       [ClientAction.RefreshMarket]) :=
  handleConnected_refetch none { currentTimestep := 0, marketData := none }
    { type := WsType.connected, timestep := 7, prices := [],
      timestamp := "t7" } rfl

/-- Claim C6: every real-time message is of type connected or
timestep_updated and carries a timestep; a timestep_updated broadcast
additionally carries the full prices map and a timestamp; the connect
message carries the current timestep. -/
theorem websocket_message_shape :
    (∀ m : WebSocketMessage,
      m.type = WsType.connected ∨ m.type = WsType.timestep_updated) ∧
    (∀ (ms : MarketState) (ts : String),
      (connectMessage ms ts).type = WsType.connected ∧
      (connectMessage ms ts).timestep = ms.timestep) ∧
    (∀ r : GenResponse,
      (broadcastOf r).type = WsType.timestep_updated ∧
      (broadcastOf r).timestep = r.timestep ∧
      (broadcastOf r).prices = r.prices ∧
      (broadcastOf r).timestamp = r.timestamp) := by
  refine ⟨?_, fun ms ts => ⟨rfl, rfl⟩, fun r => ⟨rfl, rfl, rfl, rfl⟩⟩
  intro m
  rcases m with ⟨t, ts, ps, tm⟩
  cases t
  · exact Or.inl rfl
  · exact Or.inr rfl

/-- Claim C5 counterexample: the response type declared for the generate
operation in api/client.ts has no field named timestamp; the field is
named last_updated. -/
theorem generateTimestep_no_timestamp_field :
    ¬ ("timestamp" ∈ generateTimestepResponseFields) := by
  decide

/-- Claim C5 (amended): the declared generate response carries the fields
success, timestep, last_updated and prices, and a conflicting or invalid
generate call yields an error instead of a success payload. -/
theorem generateTimestep_response_shape :
    ("success" ∈ generateTimestepResponseFields ∧
     "timestep" ∈ generateTimestepResponseFields ∧
     "last_updated" ∈ generateTimestepResponseFields ∧
     "prices" ∈ generateTimestepResponseFields ∧
     generateTimestepResponseFields.length = 4) ∧
    (∀ (entities : List Entity) (ov : OverrideMap) (draw : String → ℝ)
        (now : String) (ok : Bool) (ms : MarketState) (store : HistoryStore),
      ms.generating = true →
      (generate entities ov draw now ok ms store).2.2 =
        Except.error GenError.GenerationInProgress) ∧
    (∀ (entities : List Entity) (ov : OverrideMap) (draw : String → ℝ)
        (now : String) (ok : Bool) (ms : MarketState) (store : HistoryStore),
      ms.generating = false → ¬ validOverrides entities ov →
      (generate entities ov draw now ok ms store).2.2 =
        Except.error GenError.ValidationError) := by
  refine ⟨by decide, ?_, ?_⟩
  · intro entities ov draw now ok ms store hg
    rw [generate_locked_out entities ov draw now ok ms store hg]
  · intro entities ov draw now ok ms store hg hov
    rw [generate_invalid entities ov draw now ok ms store hg hov]

/-- Witness for claim C5 (amended) at a concrete state with the lock
held. -/
theorem generateTimestep_response_shape_witness :
    (generate [] [] (fun _ => 0) "" true
        { timestep := 0, generating := true } []).2.2 =
      Except.error GenError.GenerationInProgress :=
  generateTimestep_response_shape.2.1 [] [] (fun _ => 0) "" true
    { timestep := 0, generating := true } [] rfl

/-- Claim C1: an internal error during price computation or persistence
(injected fault or rejected commit) aborts the generate attempt
atomically: the timestep counter and the HistoryStore are exactly as
before the call, the advance-lock is released, and the error is surfaced
to the caller. -/
theorem generate_failure_atomic (entities : List Entity) (ov : OverrideMap)
    (draw : String → ℝ) (now : String) (ok : Bool)
    (ms : MarketState) (store : HistoryStore)
    (hg : ms.generating = false) (hov : validOverrides entities ov)
    (hfail : ok = false ∨
      commit store (computeBatch entities ov draw now store ms.timestep)
        = none) :
    (generate entities ov draw now ok ms store).1.timestep = ms.timestep ∧
    (generate entities ov draw now ok ms store).1.generating = false ∧
    (generate entities ov draw now ok ms store).2.1 = store ∧
    (generate entities ov draw now ok ms store).2.2 =
      Except.error GenError.PersistenceFailure := by
  have key : generate entities ov draw now ok ms store =
      ({ ms with generating := false }, store,
        Except.error GenError.PersistenceFailure) := by
    rcases hfail with hf | hf
    · subst hf
      simp [generate, hg, hov, generateLocked]
    · cases ok
      · simp [generate, hg, hov, generateLocked]
      · simp [generate, hg, hov, generateLocked, hf]
  rw [key]
  exact ⟨rfl, rfl, rfl, rfl⟩

/-- Witness for claim C1 at a concrete quiescent state with an injected
persistence fault. -/
theorem generate_failure_atomic_witness :
    (generate [] [] (fun _ => 0) "" false
        { timestep := 0, generating := false } []).1.timestep = 0 ∧
    (generate [] [] (fun _ => 0) "" false
        { timestep := 0, generating := false } []).1.generating = false ∧
    (generate [] [] (fun _ => 0) "" false
        { timestep := 0, generating := false } []).2.1 = [] ∧
    (generate [] [] (fun _ => 0) "" false
        { timestep := 0, generating := false } []).2.2 =
      Except.error GenError.PersistenceFailure :=
  generate_failure_atomic [] [] (fun _ => 0) "" false
    { timestep := 0, generating := false } [] rfl
    (by intro p hp; simp at hp) (Or.inl rfl)

/-- Claim C2: a generate call arriving while the advance-lock is held
fails immediately with GenerationInProgress, without queueing or
retrying, and leaves MarketState and the store unchanged; in the
interleaving of two simultaneous generate calls the loser fails with
GenerationInProgress while the winner succeeds and the timestep advances
by exactly one. -/
theorem generate_mutual_exclusion :
    (∀ (entities : List Entity) (ov : OverrideMap) (draw : String → ℝ)
        (now : String) (ok : Bool) (ms : MarketState) (store : HistoryStore),
      ms.generating = true →
      generate entities ov draw now ok ms store =
        (ms, store, Except.error GenError.GenerationInProgress)) ∧
    (∀ (entities : List Entity) (d1 d2 : String → ℝ) (n1 n2 : String)
        (ms : MarketState) (store : HistoryStore),
      ms.generating = false → (∀ p ∈ store, p.timestep ≤ ms.timestep) →
      generate entities [] d2 n2 true { ms with generating := true } store =
        ({ ms with generating := true }, store,
          Except.error GenError.GenerationInProgress) ∧
      (generate entities [] d1 n1 true ms store).1.timestep =
        ms.timestep + 1 ∧
      ∃ r : GenResponse,
        (generate entities [] d1 n1 true ms store).2.2 = Except.ok r ∧
        r.success = true ∧ r.timestep = ms.timestep + 1) := by
  refine ⟨fun entities ov draw now ok ms store hg =>
    generate_locked_out entities ov draw now ok ms store hg, ?_⟩
  intro entities d1 d2 n1 n2 ms store hg hstore
  refine ⟨generate_locked_out _ _ _ _ _ _ _ rfl, ?_, ?_⟩
  · rw [generate_ok_eq entities d1 n1 ms store hg hstore]
  · rw [generate_ok_eq entities d1 n1 ms store hg hstore]
    exact ⟨_, rfl, rfl, rfl⟩

/-- Witness for claim C2 at a concrete state with the lock held. -/
theorem generate_mutual_exclusion_witness :
    generate [] [] (fun _ => 0) "" true
        { timestep := 0, generating := true } [] =
      ({ timestep := 0, generating := true }, [],
        Except.error GenError.GenerationInProgress) :=
  generate_mutual_exclusion.1 [] [] (fun _ => 0) "" true
    { timestep := 0, generating := true } [] rfl

/-- Claim C3: nextPrice equals the geometric step
currentPrice * exp((drift - 0.5 * volatility ^ 2) + volatility * Z) with
dt = 1, floored at the positive constant 0.01, hence strictly positive
for every positive current price and any draw; the deterministic case
(100, 0.001, 0.02, 0) yields approximately 100.08003. -/
theorem nextPrice_spec :
    (∀ p drift vol Z : ℝ, nextPrice p drift vol Z
        = max 0.01 (p * Real.exp (drift - 0.5 * vol ^ 2 + vol * Z))) ∧
    (∀ p drift vol Z : ℝ, 0 < p → 0 < nextPrice p drift vol Z) ∧
    |nextPrice 100 0.001 0.02 0 - 100.08003| < 0.0001 := by
  have hform : ∀ p drift vol Z : ℝ, nextPrice p drift vol Z
      = max 0.01 (p * Real.exp (drift - 0.5 * vol ^ 2 + vol * Z)) := by
    intro p drift vol Z
    unfold nextPrice
    rw [Real.sqrt_one]
    have h : (drift - 0.5 * vol ^ 2) * 1 + vol * 1 * Z
        = drift - 0.5 * vol ^ 2 + vol * Z := by ring
    rw [h]
  refine ⟨hform, ?_, ?_⟩
  · intro p drift vol Z _
    exact lt_of_lt_of_le (by norm_num : (0 : ℝ) < 0.01) (le_max_left _ _)
  · rw [hform]
    have harg : (0.001 : ℝ) - 0.5 * 0.02 ^ 2 + 0.02 * 0 = 0.0008 := by
      norm_num
    rw [harg]
    have hlo : (1.0008 : ℝ) ≤ Real.exp 0.0008 := by
      have h := Real.add_one_le_exp (0.0008 : ℝ)
      linarith
    have hpos := Real.exp_pos (0.0008 : ℝ)
    have hup : (0.9992 : ℝ) * Real.exp 0.0008 ≤ 1 := by
      have h := Real.add_one_le_exp (-0.0008 : ℝ)
      rw [Real.exp_neg] at h
      have h2 := mul_le_mul_of_nonneg_right h (le_of_lt hpos)
      rw [inv_mul_cancel₀ (ne_of_gt hpos)] at h2
      linarith
    have hmax : max (0.01 : ℝ) (100 * Real.exp 0.0008)
        = 100 * Real.exp 0.0008 := by
      apply max_eq_right
      nlinarith
    rw [hmax, abs_lt]
    constructor
    · linarith
    · linarith

/-- Witness for claim C3 at the deterministic test case. -/
theorem nextPrice_spec_witness : 0 < nextPrice 100 0.001 0.02 0 :=
  nextPrice_spec.2.1 100 0.001 0.02 0 (by norm_num)

/-- Claim C4: after N successful generate calls from timestep t0 the
timestep equals t0 + N; the series of a tracked symbol gains exactly N
new points whose timesteps are the consecutive values t0 + 1 ... t0 + N
(no gaps), and for a freshly introduced symbol the whole series has no
duplicate timesteps. -/
theorem timestep_monotonic (entities : List Entity)
    (draws : Nat → String → ℝ) (nows : Nat → String) (sym : String)
    (n : Nat) (ms : MarketState) (store : HistoryStore)
    (hone : (entities.filter (fun e => e.symbol == sym)).length = 1)
    (hg : ms.generating = false)
    (hstore : ∀ p ∈ store, p.timestep ≤ ms.timestep) :
    (generateRun entities draws nows n (ms, store)).1.timestep
        = ms.timestep + n ∧
    (series (generateRun entities draws nows n (ms, store)).2 sym).map
        PricePoint.timestep
      = (series store sym).map PricePoint.timestep
        ++ (List.range n).map (fun k => ms.timestep + 1 + k) ∧
    (series (generateRun entities draws nows n (ms, store)).2 sym).length
      = (series store sym).length + n ∧
    (series store sym = [] →
      ((series (generateRun entities draws nows n (ms, store)).2 sym).map
        PricePoint.timestep).Nodup) := by
  obtain ⟨h1, _, _, h4⟩ :=
    generateRun_spec entities draws nows sym hone n ms store hg hstore
  refine ⟨h1, h4, ?_, ?_⟩
  · have hlen := congrArg List.length h4
    simpa using hlen
  · intro hemp
    rw [h4, hemp]
    simp only [List.map_nil, List.nil_append]
    refine List.Nodup.map ?_ (List.nodup_range n)
    intro a b hab
    have hab2 : ms.timestep + 1 + a = ms.timestep + 1 + b := hab
    omega

/-- Witness for claim C4: two generate calls on a single tracked entity
from an empty ledger yield timestep 2 and the series [1, 2]. -/
theorem timestep_monotonic_witness :
    (generateRun
        [{ symbol := "GLXT", name := "Galactic Transport",
           initial_price := 100, trend := 0.001, volatility := 0.02 }]
        (fun _ _ => 0) (fun _ => "") 2
        ({ timestep := 0, generating := false }, [])).1.timestep = 0 + 2 ∧
    (series (generateRun
        [{ symbol := "GLXT", name := "Galactic Transport",
           initial_price := 100, trend := 0.001, volatility := 0.02 }]
        (fun _ _ => 0) (fun _ => "") 2
        ({ timestep := 0, generating := false }, [])).2 "GLXT").map
        PricePoint.timestep
      = (series [] "GLXT").map PricePoint.timestep
        ++ (List.range 2).map (fun k => 0 + 1 + k) ∧
    (series (generateRun
        [{ symbol := "GLXT", name := "Galactic Transport",
           initial_price := 100, trend := 0.001, volatility := 0.02 }]
        (fun _ _ => 0) (fun _ => "") 2
        ({ timestep := 0, generating := false }, [])).2 "GLXT").length
      = (series [] "GLXT").length + 2 ∧
    (series [] "GLXT" = [] →
      ((series (generateRun
          [{ symbol := "GLXT", name := "Galactic Transport",
             initial_price := 100, trend := 0.001, volatility := 0.02 }]
          (fun _ _ => 0) (fun _ => "") 2
          ({ timestep := 0, generating := false }, [])).2 "GLXT").map
        PricePoint.timestep).Nodup) :=
  timestep_monotonic
    [{ symbol := "GLXT", name := "Galactic Transport",
       initial_price := 100, trend := 0.001, volatility := 0.02 }]
    (fun _ _ => 0) (fun _ => "") "GLXT" 2
    { timestep := 0, generating := false } []
    (by simp) rfl (by intro p hp; simp at hp)

end GalaxyStock
